import Mathlib

/-!
# Order-Locator: the HTTP handlers and the geocoder of `main.go`

A shallow embedding of `submitHandler`, `mapHandler`, `ordersAPIHandler` and
`geocodeAddress`.  Everything outside the program (the MongoDB driver, the
geocoding provider, the JSON decoder, the template files) is an explicit
environment value; the control flow of each function follows the source line
by line.  A handler returns the sequence of calls it makes on its
`http.ResponseWriter`.
-/

set_option autoImplicit false

namespace OrderLocator

/-! ## Go values -/

/-- Go `float64`, represented by its IEEE-754 bit pattern. The program only
copies these values and hands them to `json.Marshal`. -/
structure Float64 where
  bits : Nat
deriving DecidableEq, Repr

/-- Biased exponent field (11 bits). -/
def Float64.exponent (f : Float64) : Nat := (f.bits / 2 ^ 52) % 2048

/-- Fraction field (52 bits). -/
def Float64.mantissa (f : Float64) : Nat := f.bits % 2 ^ 52

/-- Sign bit. -/
def Float64.signBit (f : Float64) : Nat := (f.bits / 2 ^ 63) % 2

/-- Go `math.IsNaN`. -/
def Float64.isNaN (f : Float64) : Bool := f.exponent == 2047 && f.mantissa != 0

/-- Go `math.IsInf(f, 0)`. -/
def Float64.isInf (f : Float64) : Bool := f.exponent == 2047 && f.mantissa == 0

/-- Neither NaN nor an infinity. -/
def Float64.isFinite (f : Float64) : Bool := !(f.isNaN || f.isInf)

/-- A Go slice as far as this program can tell slices apart: the nil slice
(`var xs []T`) or a non-nil slice with its elements. -/
inductive Slice (α : Type) where
  | nil : Slice α
  | mk (elems : List α) : Slice α
deriving Repr

/-- Elements of a slice, as `range` visits them. -/
def Slice.toList {α : Type} : Slice α → List α
  | .nil => []
  | .mk xs => xs

/-- Go `len`. -/
def Slice.len {α : Type} (s : Slice α) : Nat := s.toList.length

/-- Go `append(s, x)`: the result is never nil. -/
def Slice.append {α : Type} (s : Slice α) (x : α) : Slice α :=
  .mk (s.toList ++ [x])

/-- The slice after appending the elements of `xs` one at a time. -/
def Slice.appendAll {α : Type} (s : Slice α) : List α → Slice α
  | [] => s
  | x :: xs => (s.append x).appendAll xs

/-- Outcome of a Go call of type `(T, error)`: a value with a nil error, a nil
value with an error, or a run-time panic unwinding out of the call. -/
inductive GoResult (α : Type) where
  | ok (v : α) : GoResult α
  | err (e : String) : GoResult α
  | panic (msg : String) : GoResult α
deriving DecidableEq, Repr

/-! ## Data model (main.go lines 18-23) -/

/-- The `Order` struct. -/
structure Order where
  Name : String
  Phone : String
  Address : String
  PreferableDeliveryTime : String
deriving DecidableEq, Repr

/-- Go `map[string]float64` as built by a map literal: its key/value pairs. -/
abbrev Location := List (String × Float64)

/-- Innermost anonymous struct of the geocoder reply (lines 218-221). -/
structure GeoLatLng where
  Lat : Float64
  Lng : Float64
deriving DecidableEq, Repr

/-- Anonymous struct `Geometry` (lines 217-222). -/
structure GeoGeometry where
  Location : GeoLatLng
deriving DecidableEq, Repr

/-- Element type of `Results` (lines 216-223). -/
structure GeoEntry where
  Geometry : GeoGeometry
deriving DecidableEq, Repr

/-- The decoded provider reply `result` (lines 215-225). -/
structure GeocodeResponse where
  Results : List GeoEntry
  Status : String
deriving DecidableEq, Repr

/-- Every number of a decoded reply is finite. -/
def GeocodeResponse.finite (r : GeocodeResponse) : Prop :=
  ∀ e ∈ r.Results,
    e.Geometry.Location.Lat.isFinite = true ∧ e.Geometry.Location.Lng.isFinite = true

/-! ## Responses -/

/-- JSON text as `json.Marshal` produces it, kept as a tree. -/
inductive JSON where
  | null : JSON
  | str (s : String) : JSON
  | num (f : Float64) : JSON
  | arr (xs : List JSON) : JSON
  | obj (kvs : List (String × JSON)) : JSON

/-- Whether a JSON value is an array. -/
def JSON.isArray : JSON → Bool
  | .arr _ => true
  | _ => false

/-- One call on the `http.ResponseWriter`, or the panic that ended the handler. -/
inductive Effect where
  /-- The call `http.Error(w, msg, code)`. -/
  | httpError (msg : String) (code : Nat) : Effect
  /-- The call `http.Redirect(w, r, url, code)`. -/
  | httpRedirect (url : String) (code : Nat) : Effect
  /-- The call `w.Header().Set(key, value)`. -/
  | setHeader (key : String) (value : String) : Effect
  /-- Bytes written by `tmpl.Execute(w, data)`. -/
  | writeText (out : String) : Effect
  /-- The call `w.Write(jsonData)`. -/
  | writeJSON (j : JSON) : Effect
  /-- The handler goroutine panicked: no further call is made on `w`. -/
  | crash (msg : String) : Effect

/-- What a handler did to its response, in order. -/
abbrev Trace := List Effect

/-- `http.StatusSeeOther`. -/
def StatusSeeOther : Nat := 303

/-- `http.StatusMethodNotAllowed`. -/
def StatusMethodNotAllowed : Nat := 405

/-- `http.StatusInternalServerError`. -/
def StatusInternalServerError : Nat := 500

/-- `http.MethodPost`. -/
def MethodPost : String := "POST"

/-! ## Environment of the listing handlers -/

/-- A MongoDB cursor as the handlers consume it: the documents for which
`cursor.Next` answers true, each with the outcome of `cursor.Decode`, and the
value of `cursor.Err()` once `Next` has answered false. -/
structure Cursor where
  items : List (Except String Order)
  err : Option String

/-- The struct handed to the template or to `json.Marshal` (lines 132-139, 187-193). -/
structure PageData where
  Orders : Slice Order
  Locations : Slice Location

/-- A parsed template: `Execute` writes some bytes and may report an error. -/
abbrev Template := PageData → String × Option String

/-- Everything one request to `/map` or `/api/orders` reads from outside.
`apiKey` is the string literal of line 206, kept as a value of the environment.
`jsonDecode_finite` records that `encoding/json` rejects numbers outside the
range of `float64`, so a decoded reply holds no NaN and no infinity. -/
structure Env where
  find : Except String Cursor
  apiKey : String
  queryEscape : String → String
  httpGet : String → Except String String
  jsonDecode : String → Except String GeocodeResponse
  jsonDecode_finite : ∀ body r, jsonDecode body = .ok r → r.finite
  parseFiles : String → Except String Template

/-! ## geocodeAddress (lines 205-240) -/

/-- Line 207: the request URL. -/
def geocodeURL (env : Env) (address : String) : String :=
  "https://maps.googleapis.com/maps/api/geocode/json?address="
    ++ env.queryEscape address ++ "&key=" ++ env.apiKey

/-- The function `geocodeAddress`. Indexing `result.Results[0]` on an empty
slice is a Go run-time panic. -/
def geocodeAddress (env : Env) (address : String) : GoResult Location :=
  match env.httpGet (geocodeURL env address) with
  | .error e => .err e
  | .ok body =>
    match env.jsonDecode body with
    | .error e => .err e
    | .ok result =>
      if result.Status ≠ "OK" then
        .err ("Geocode request failed with status: " ++ result.Status)
      else
        match result.Results with
        | [] => .panic "runtime error: index out of range [0] with length 0"
        | first :: _ =>
          .ok [("lat", first.Geometry.Location.Lat), ("lng", first.Geometry.Location.Lng)]

/-! ## submitHandler (lines 66-97) -/

/-- Go `url.Values`, a `map[string][]string`, as key/values pairs. -/
abbrev Values := List (String × List String)

/-- The request as `submitHandler` reads it: its method and the outcome of
`r.ParseForm()`, which on success leaves the parsed fields in `r.Form`. -/
structure Request where
  Method : String
  parseForm : Except String Values

/-- The call `r.FormValue(key)` once `r.Form` is populated: the first value
stored under `key`, or the empty string when there is none. -/
def FormValue (form : Values) (key : String) : String :=
  match form.lookup key with
  | some (v :: _) => v
  | _ => ""

/-- The `orders` collection: its documents, in iteration order. -/
structure Collection where
  docs : List Order
deriving DecidableEq, Repr

/-- The call `ordersCollection.InsertOne(ctx, order)`. `fault` is the error the
driver reports for this call, if any; a successful insert adds the document
to the collection and touches no other document. -/
def InsertOne (fault : Option String) (c : Collection) (order : Order) :
    Except String Unit × Collection :=
  match fault with
  | some e => (.error e, c)
  | none => (.ok (), { docs := c.docs ++ [order] })

/-- The handler `submitHandler`: the calls made on `w` and the collection afterwards. -/
def submitHandler (r : Request) (fault : Option String) (c : Collection) :
    Trace × Collection :=
  if r.Method ≠ MethodPost then
    ([.httpError "Method not allowed" StatusMethodNotAllowed], c)
  else
    match r.parseForm with
    | .error e => ([.httpError e StatusInternalServerError], c)
    | .ok form =>
      let name := FormValue form "name"
      let phone := FormValue form "phone"
      let address := FormValue form "address"
      let preferableDeliveryTime := FormValue form "preferable_delivery_time"
      let order : Order :=
        { Name := name
          Phone := phone
          Address := address
          PreferableDeliveryTime := preferableDeliveryTime }
      match InsertOne fault c order with
      | (.error e, c1) => ([.httpError e StatusInternalServerError], c1)
      | (.ok _, c1) => ([.httpRedirect "/map" StatusSeeOther], c1)

/-- A sequence of requests to `/submit`, each with the fault its insert meets. -/
def submitAll : List (Request × Option String) → Collection → Collection
  | [], c => c
  | (r, fault) :: rest, c => submitAll rest (submitHandler r fault c).2

/-- The call `ordersCollection.Find(ctx, bson.M{})` on a reachable collection
holding documents written by `submitHandler`: every document is visited and
decodes to the `Order` it was written from. -/
def Collection.find (c : Collection) : Except String Cursor :=
  .ok { items := c.docs.map .ok, err := none }

/-! ## mapHandler (lines 99-152) -/

/-- Where the listing part of a handler gave up. The number is the count of
elements already appended when it did. -/
inductive FailPoint where
  | find : FailPoint
  | decode (seen : Nat) : FailPoint
  | cursorErr : FailPoint
  | geocode (seen : Nat) : FailPoint
deriving DecidableEq, Repr

/-- Result of a handler section: go on with a value, or the handler has
returned (or panicked) at `point` having made the calls `t`. -/
inductive Stage (α : Type) where
  | next (a : α) : Stage α
  | halt (point : FailPoint) (t : Trace) : Stage α

/-- Lines 108-116: the `for cursor.Next` loop. -/
def mapHandler.decodeLoop : List (Except String Order) → Slice Order → Stage (Slice Order)
  | [], orders => .next orders
  | .error e :: _, orders =>
    .halt (.decode orders.len) [.httpError e StatusInternalServerError]
  | .ok order :: rest, orders => mapHandler.decodeLoop rest (orders.append order)

/-- Lines 122-130: the `for _, order := range orders` loop. -/
def mapHandler.geocodeLoop (env : Env) : List Order → Slice Location → Stage (Slice Location)
  | [], locations => .next locations
  | order :: rest, locations =>
    match geocodeAddress env order.Address with
    | .panic msg => .halt (.geocode locations.len) [.crash msg]
    | .err e => .halt (.geocode locations.len) [.httpError e StatusInternalServerError]
    | .ok location => mapHandler.geocodeLoop env rest (locations.append location)

/-- Lines 101-120: `Find`, the cursor loop and the check of `cursor.Err()`; the
step the specification calls listAll. -/
def mapHandler.listAll (env : Env) : Stage (Slice Order) :=
  match env.find with
  | .error e => .halt .find [.httpError e StatusInternalServerError]
  | .ok cursor =>
    match mapHandler.decodeLoop cursor.items .nil with
    | .halt p t => .halt p t
    | .next orders =>
      match cursor.err with
      | some e => .halt .cursorErr [.httpError e StatusInternalServerError]
      | none => .next orders

/-- Lines 101-139: everything up to the construction of `data`. -/
def mapHandler.collect (env : Env) : Stage PageData :=
  match mapHandler.listAll env with
  | .halt p t => .halt p t
  | .next orders =>
    match mapHandler.geocodeLoop env orders.toList .nil with
    | .halt p t => .halt p t
    | .next locations => .next { Orders := orders, Locations := locations }

/-- Lines 141-151: parse the template and execute it on `data`. -/
def mapHandler.render (env : Env) (data : PageData) : Trace :=
  match env.parseFiles "templates/map.html" with
  | .error e => [.httpError e StatusInternalServerError]
  | .ok tmpl =>
    match tmpl data with
    | (out, some e) => [.writeText out, .httpError e StatusInternalServerError]
    | (out, none) => [.writeText out]

/-- The handler `mapHandler`. -/
def mapHandler (env : Env) : Trace :=
  match mapHandler.collect env with
  | .halt _ t => t
  | .next data => mapHandler.render env data

/-! ## ordersAPIHandler (lines 154-203) -/

/-- Lines 163-171: the `for cursor.Next` loop. -/
def ordersAPIHandler.decodeLoop :
    List (Except String Order) → Slice Order → Stage (Slice Order)
  | [], orders => .next orders
  | .error e :: _, orders =>
    .halt (.decode orders.len) [.httpError e StatusInternalServerError]
  | .ok order :: rest, orders => ordersAPIHandler.decodeLoop rest (orders.append order)

/-- Lines 177-185: the `for _, order := range orders` loop. -/
def ordersAPIHandler.geocodeLoop (env : Env) :
    List Order → Slice Location → Stage (Slice Location)
  | [], locations => .next locations
  | order :: rest, locations =>
    match geocodeAddress env order.Address with
    | .panic msg => .halt (.geocode locations.len) [.crash msg]
    | .err e => .halt (.geocode locations.len) [.httpError e StatusInternalServerError]
    | .ok location => ordersAPIHandler.geocodeLoop env rest (locations.append location)

/-- Lines 156-175: `Find`, the cursor loop and the check of `cursor.Err()`; the
step the specification calls listAll. -/
def ordersAPIHandler.listAll (env : Env) : Stage (Slice Order) :=
  match env.find with
  | .error e => .halt .find [.httpError e StatusInternalServerError]
  | .ok cursor =>
    match ordersAPIHandler.decodeLoop cursor.items .nil with
    | .halt p t => .halt p t
    | .next orders =>
      match cursor.err with
      | some e => .halt .cursorErr [.httpError e StatusInternalServerError]
      | none => .next orders

/-- Lines 156-193: everything up to the construction of `data`. -/
def ordersAPIHandler.collect (env : Env) : Stage PageData :=
  match ordersAPIHandler.listAll env with
  | .halt p t => .halt p t
  | .next orders =>
    match ordersAPIHandler.geocodeLoop env orders.toList .nil with
    | .halt p t => .halt p t
    | .next locations => .next { Orders := orders, Locations := locations }

/-! ### `json.Marshal` on the value built at lines 187-193 -/

/-- Float encoder of `encoding/json`: NaN and the infinities are refused. -/
def marshalFloat (f : Float64) : Except String JSON :=
  if f.isNaN then .error "json: unsupported value: NaN"
  else if f.isInf then
    .error (if f.signBit = 1 then "json: unsupported value: -Inf"
      else "json: unsupported value: +Inf")
  else .ok (.num f)

/-- An `Order` has four exported string fields and no `json` tags: an object
keyed by the Go field names, in declaration order. -/
def marshalOrder (o : Order) : JSON :=
  .obj [("Name", .str o.Name), ("Phone", .str o.Phone), ("Address", .str o.Address),
    ("PreferableDeliveryTime", .str o.PreferableDeliveryTime)]

/-- Insert a map entry keeping the keys ascending. -/
def insertByKey (kv : String × Float64) : List (String × Float64) → List (String × Float64)
  | [] => [kv]
  | x :: rest => if kv.1 < x.1 then kv :: x :: rest else x :: insertByKey kv rest

/-- Map entries by ascending key, the order in which `encoding/json` writes a map. -/
def sortByKey : List (String × Float64) → List (String × Float64)
  | [] => []
  | kv :: rest => insertByKey kv (sortByKey rest)

/-- Encode the entries of a map, stopping at the first value that is refused. -/
def marshalEntries : List (String × Float64) → Except String (List (String × JSON))
  | [] => .ok []
  | (k, v) :: rest =>
    match marshalFloat v with
    | .error e => .error e
    | .ok j =>
      match marshalEntries rest with
      | .error e => .error e
      | .ok js => .ok ((k, j) :: js)

/-- A non-nil `map[string]float64` encodes as an object with sorted keys. -/
def marshalLocation (m : Location) : Except String JSON :=
  match marshalEntries (sortByKey m) with
  | .error e => .error e
  | .ok kvs => .ok (.obj kvs)

/-- Encode the elements of `Locations`, stopping at the first error. -/
def marshalLocationList : List Location → Except String (List JSON)
  | [] => .ok []
  | m :: rest =>
    match marshalLocation m with
    | .error e => .error e
    | .ok j =>
      match marshalLocationList rest with
      | .error e => .error e
      | .ok js => .ok (j :: js)

/-- A nil slice encodes as `null`, any other slice as an array. -/
def marshalOrders : Slice Order → JSON
  | .nil => .null
  | .mk xs => .arr (xs.map marshalOrder)

/-- A nil slice encodes as `null`, any other slice as an array. -/
def marshalLocations : Slice Location → Except String JSON
  | .nil => .ok .null
  | .mk ms =>
    match marshalLocationList ms with
    | .error e => .error e
    | .ok js => .ok (.arr js)

/-- Line 195: `json.Marshal(data)`, fields in declaration order. -/
def marshalData (data : PageData) : Except String JSON :=
  match marshalLocations data.Locations with
  | .error e => .error e
  | .ok locs => .ok (.obj [("Orders", marshalOrders data.Orders), ("Locations", locs)])

/-- Lines 195-202: marshal `data` and write it. -/
def ordersAPIHandler.serialize (data : PageData) : Trace :=
  match marshalData data with
  | .error e => [.httpError e StatusInternalServerError]
  | .ok jsonData => [.setHeader "Content-Type" "application/json", .writeJSON jsonData]

/-- The handler `ordersAPIHandler`. -/
def ordersAPIHandler (env : Env) : Trace :=
  match ordersAPIHandler.collect env with
  | .halt _ t => t
  | .next data => ordersAPIHandler.serialize data

/-! ## Properties stated about the handlers -/

/-- `Locations` is as long as `Orders`, and the location at each index is what
`geocodeAddress` returned for the address of the order at that index. -/
def PairedByPosition (env : Env) (data : PageData) : Prop :=
  data.Locations.len = data.Orders.len ∧
  ∀ (i : Nat) (order : Order), data.Orders.toList[i]? = some order →
    ∃ location, data.Locations.toList[i]? = some location ∧
      geocodeAddress env order.Address = .ok location

/-- `Orders` holds the documents of the cursor `Find` returned, in cursor order. -/
def InStoreOrder (env : Env) (data : PageData) : Prop :=
  ∃ cursor, env.find = .ok cursor ∧ cursor.items = data.Orders.toList.map .ok

/-- The JSON object with exactly the keys `lat` and `lng`, holding the two
values of the location `l`. -/
def LatLngObject (l : Location) (j : JSON) : Prop :=
  ∃ lat lng, l = [("lat", lat), ("lng", lng)] ∧ j = .obj [("lat", .num lat), ("lng", .num lng)]

/-- The response `t` is the header `Content-Type: application/json` followed by
one JSON object with the keys `Orders` and `Locations`: both `null` when `data`
has no order, and otherwise two arrays of the length of `data.Orders`, the
first holding the encoded orders and the second one `lat`/`lng` object for
each location, in order. -/
def OrdersBody (data : PageData) (t : Trace) : Prop :=
  ∃ orders locations,
    t = [.setHeader "Content-Type" "application/json",
      .writeJSON (.obj [("Orders", orders), ("Locations", locations)])] ∧
    (data.Orders.len = 0 → orders = .null ∧ locations = .null) ∧
    (0 < data.Orders.len → ∃ os ls, orders = .arr os ∧ locations = .arr ls ∧
      os = data.Orders.toList.map marshalOrder ∧ os.length = data.Orders.len ∧
      ls.length = os.length ∧ List.Forall₂ LatLngObject data.Locations.toList ls)

/-- The `Order` that `submitHandler` builds from a parsed form (lines 78-88). -/
def orderOfForm (form : Values) : Order :=
  { Name := FormValue form "name"
    Phone := FormValue form "phone"
    Address := FormValue form "address"
    PreferableDeliveryTime := FormValue form "preferable_delivery_time" }

/-! ## Sample environments -/

/-- Whether every number of a reply is finite, as a test. -/
def GeocodeResponse.finiteB (r : GeocodeResponse) : Bool :=
  r.Results.all fun e =>
    e.Geometry.Location.Lat.isFinite && e.Geometry.Location.Lng.isFinite

/-- Provider reply with status OK and no result. -/
def bodyEmptyOK : String := "\x7b\"results\":[],\"status\":\"OK\"\x7d"

/-- Provider reply with status ZERO_RESULTS. -/
def bodyZeroResults : String := "\x7b\"results\":[],\"status\":\"ZERO_RESULTS\"\x7d"

/-- Provider reply with status OK and two results, the first at (48.5, 2.25),
the second at (2.25, 48.5). -/
def bodyParis : String :=
  "\x7b\"results\":[\x7b\"geometry\":\x7b\"location\":\x7b\"lat\":48.5,\"lng\":2.25\x7d\x7d\x7d," ++
  "\x7b\"geometry\":\x7b\"location\":\x7b\"lat\":2.25,\"lng\":48.5\x7d\x7d\x7d],\"status\":\"OK\"\x7d"

/-- The `float64` 48.5. -/
def f48_5 : Float64 := ⟨0x4048400000000000⟩

/-- The `float64` 2.25. -/
def f2_25 : Float64 := ⟨0x4002000000000000⟩

/-- First result of `bodyParis`. -/
def parisFirst : GeoEntry := ⟨⟨⟨f48_5, f2_25⟩⟩⟩

/-- Second result of `bodyParis`. -/
def parisSecond : GeoEntry := ⟨⟨⟨f2_25, f48_5⟩⟩⟩

/-- A provider: `Paris` resolves, `Atlantis` gets OK with no result, `Nowhere`
gets ZERO_RESULTS, `Garbled` gets an empty body, anything else is unreachable. -/
def sampleProvider (url : String) : Except String String :=
  if url = "https://maps.googleapis.com/maps/api/geocode/json?address=Paris&key=KEY" then
    .ok bodyParis
  else if url = "https://maps.googleapis.com/maps/api/geocode/json?address=Atlantis&key=KEY" then
    .ok bodyEmptyOK
  else if url = "https://maps.googleapis.com/maps/api/geocode/json?address=Nowhere&key=KEY" then
    .ok bodyZeroResults
  else if url = "https://maps.googleapis.com/maps/api/geocode/json?address=Garbled&key=KEY" then
    .ok ""
  else .error "dial tcp: i/o timeout"

/-- What the three sample bodies parse to; an empty body is the error `EOF`. -/
def sampleParse (body : String) : Except String GeocodeResponse :=
  if body = bodyParis then .ok ⟨[parisFirst, parisSecond], "OK"⟩
  else if body = bodyEmptyOK then .ok ⟨[], "OK"⟩
  else if body = bodyZeroResults then .ok ⟨[], "ZERO_RESULTS"⟩
  else .error "EOF"

/-- Decoder of the samples: `sampleParse`, refusing any non-finite number. -/
def sampleDecode (body : String) : Except String GeocodeResponse :=
  match sampleParse body with
  | .error e => .error e
  | .ok r => if r.finiteB then .ok r else .error "json: cannot unmarshal number"

/-- A template that prints how many orders and locations it was given. -/
def sampleTemplate : Template := fun data =>
  (toString data.Orders.len ++ " orders, " ++ toString data.Locations.len ++ " locations", none)

/-- Template files of the samples: only `templates/map.html` exists. -/
def sampleFiles (name : String) : Except String Template :=
  if name = "templates/map.html" then .ok sampleTemplate
  else .error "open: no such file or directory"

/-- The sample environment around a given answer of `Find`. The sample
addresses hold letters only, which `url.QueryEscape` leaves as they are. -/
def sampleEnv (find : Except String Cursor) : Env :=
  { find := find
    apiKey := "KEY"
    queryEscape := fun s => s
    httpGet := sampleProvider
    jsonDecode := sampleDecode
    jsonDecode_finite := by
      intro body r h
      unfold sampleDecode at h
      split at h
      · cases h
      · split at h
        · rename_i hfin
          cases h
          intro e he
          have := List.all_eq_true.mp hfin e he
          simpa using this
        · cases h
    parseFiles := sampleFiles }

/-- An order to be delivered in Paris. -/
def orderParis : Order := ⟨"Alice", "555-1234", "Paris", "morning"⟩

/-- An order whose address gets OK with no result. -/
def orderAtlantis : Order := ⟨"Bob", "555-0000", "Atlantis", "noon"⟩

/-- An order whose address gets ZERO_RESULTS. -/
def orderNowhere : Order := ⟨"Carol", "555-9999", "Nowhere", "evening"⟩

/-- `Find` answering with the given orders and no cursor error. -/
def findOf (orders : List Order) : Except String Cursor :=
  Collection.find ⟨orders⟩

/-- A second order to be delivered in Paris. -/
def orderParis2 : Order := ⟨"Dave", "555-4321", "Paris", "night"⟩

/-- The location `geocodeAddress` returns for `Paris`. -/
def locParis : Location := [("lat", f48_5), ("lng", f2_25)]

/-- The form of the specification example, sent without a phone field. -/
def formAlice : Values :=
  [("name", ["Alice"]), ("address", ["Paris"]), ("preferable_delivery_time", ["morning"])]

/-- A form with all four fields. -/
def formDave : Values :=
  [("name", ["Dave"]), ("phone", ["555-4321"]), ("address", ["Paris"]),
    ("preferable_delivery_time", ["night"])]

/-! ## geocodeAddress: results -/

/-- With status OK and an empty `Results`, `geocodeAddress` panics at
`result.Results[0]`: it returns neither a location nor an error. -/
theorem geocodeAddress_ok_empty (env : Env) (address body : String)
    (result : GeocodeResponse)
    (hget : env.httpGet (geocodeURL env address) = .ok body)
    (hdec : env.jsonDecode body = .ok result)
    (hstatus : result.Status = "OK")
    (hres : result.Results = []) :
    geocodeAddress env address
      = .panic "runtime error: index out of range [0] with length 0" := by
  simp [geocodeAddress, hget, hdec, hstatus, hres]

/-- C1 (evaluation at the failing input): for the address `Atlantis`, answered
by the provider with status OK and an empty result list, `geocodeAddress`
panics with an index-out-of-range error instead of returning an error value. -/
theorem geocodeAddress_empty_results_panics :
    geocodeAddress (sampleEnv (findOf [])) "Atlantis"
      = GoResult.panic "runtime error: index out of range [0] with length 0" :=
  geocodeAddress_ok_empty (sampleEnv (findOf [])) "Atlantis" bodyEmptyOK ⟨[], "OK"⟩
    rfl rfl rfl rfl

/-- C2: when the provider reply decodes with status OK and a non-empty result
list, `geocodeAddress` returns a location whose keys are exactly `lat` and
`lng`, bound to the first result's latitude and longitude as decoded; the
remaining results play no part. -/
theorem geocodeAddress_ok_first_result (env : Env) (address body : String)
    (result : GeocodeResponse) (first : GeoEntry) (rest : List GeoEntry)
    (hget : env.httpGet (geocodeURL env address) = .ok body)
    (hdec : env.jsonDecode body = .ok result)
    (hstatus : result.Status = "OK")
    (hres : result.Results = first :: rest) :
    ∃ location, geocodeAddress env address = .ok location ∧
      location.map Prod.fst = ["lat", "lng"] ∧
      location = [("lat", first.Geometry.Location.Lat),
        ("lng", first.Geometry.Location.Lng)] := by
  refine ⟨[("lat", first.Geometry.Location.Lat), ("lng", first.Geometry.Location.Lng)],
    ?_, rfl, rfl⟩
  simp [geocodeAddress, hget, hdec, hstatus, hres]

/-- Witness for C2: `Paris` resolves to two results and the first one is returned. -/
theorem geocodeAddress_ok_first_result_witness :
    ∃ location, geocodeAddress (sampleEnv (findOf [])) "Paris" = .ok location ∧
      location.map Prod.fst = ["lat", "lng"] ∧
      location = [("lat", f48_5), ("lng", f2_25)] :=
  geocodeAddress_ok_first_result (sampleEnv (findOf [])) "Paris" bodyParis
    ⟨[parisFirst, parisSecond], "OK"⟩ parisFirst [parisSecond] rfl rfl rfl rfl

/-- C3: `geocodeAddress` returns an error, hence no location, when the HTTP
call fails, when the body does not decode, and when the decoded status is not
`OK`; in the last case the message ends with that status. -/
theorem geocodeAddress_failures (env : Env) (address : String) :
    (∀ e, env.httpGet (geocodeURL env address) = .error e →
      geocodeAddress env address = .err e) ∧
    (∀ body e, env.httpGet (geocodeURL env address) = .ok body →
      env.jsonDecode body = .error e →
      geocodeAddress env address = .err e) ∧
    (∀ body result, env.httpGet (geocodeURL env address) = .ok body →
      env.jsonDecode body = .ok result → result.Status ≠ "OK" →
      geocodeAddress env address
        = .err ("Geocode request failed with status: " ++ result.Status)) := by
  refine ⟨?_, ?_, ?_⟩
  · intro e hget
    simp [geocodeAddress, hget]
  · intro body e hget hdec
    simp [geocodeAddress, hget, hdec]
  · intro body result hget hdec hstatus
    simp [geocodeAddress, hget, hdec, hstatus]

/-- Witness for C3: one address for each of the three failures. -/
theorem geocodeAddress_failures_witness :
    geocodeAddress (sampleEnv (findOf [])) "Offline" = .err "dial tcp: i/o timeout" ∧
    geocodeAddress (sampleEnv (findOf [])) "Garbled" = .err "EOF" ∧
    geocodeAddress (sampleEnv (findOf [])) "Nowhere"
      = .err "Geocode request failed with status: ZERO_RESULTS" :=
  ⟨(geocodeAddress_failures (sampleEnv (findOf [])) "Offline").1 _ rfl,
   (geocodeAddress_failures (sampleEnv (findOf [])) "Garbled").2.1 "" _ rfl rfl,
   (geocodeAddress_failures (sampleEnv (findOf [])) "Nowhere").2.2 bodyZeroResults
      ⟨[], "ZERO_RESULTS"⟩ rfl rfl (by decide)⟩

/-! ## The two listing handlers -/

/-- Elements after `appendAll`. -/
theorem Slice.toList_appendAll {α : Type} (s : Slice α) (xs : List α) :
    (s.appendAll xs).toList = s.toList ++ xs := by
  induction xs generalizing s with
  | nil => simp [Slice.appendAll]
  | cons x xs ih =>
    simp only [Slice.appendAll]
    rw [ih]
    simp [Slice.append, Slice.toList]

/-- Appending to the nil slice yields exactly the appended elements. -/
theorem Slice.toList_nil_appendAll {α : Type} (xs : List α) :
    ((Slice.nil : Slice α).appendAll xs).toList = xs := by
  rw [Slice.toList_appendAll]
  simp [Slice.toList]

/-- The cursor loops of the two handlers are the same function. -/
theorem decodeLoop_agree (items : List (Except String Order)) (acc : Slice Order) :
    ordersAPIHandler.decodeLoop items acc = mapHandler.decodeLoop items acc := by
  induction items generalizing acc with
  | nil => rfl
  | cons item rest ih =>
    cases item with
    | error e => rfl
    | ok order => simpa [ordersAPIHandler.decodeLoop, mapHandler.decodeLoop] using ih _

/-- The geocoding loops of the two handlers are the same function. -/
theorem geocodeLoop_agree (env : Env) (orders : List Order) (acc : Slice Location) :
    ordersAPIHandler.geocodeLoop env orders acc = mapHandler.geocodeLoop env orders acc := by
  induction orders generalizing acc with
  | nil => rfl
  | cons order rest ih =>
    simp only [ordersAPIHandler.geocodeLoop, mapHandler.geocodeLoop]
    cases geocodeAddress env order.Address with
    | ok location => exact ih _
    | err e => rfl
    | panic msg => rfl

/-- The listAll sections of the two handlers agree. -/
theorem listAll_agree (env : Env) :
    ordersAPIHandler.listAll env = mapHandler.listAll env := by
  simp only [ordersAPIHandler.listAll, mapHandler.listAll, decodeLoop_agree]

/-- The sections before rendering agree. -/
theorem collect_agree (env : Env) :
    ordersAPIHandler.collect env = mapHandler.collect env := by
  simp only [ordersAPIHandler.collect, mapHandler.collect, listAll_agree, geocodeLoop_agree]

/-- A cursor loop that runs to its end decoded every document and appended
each in turn. -/
theorem mapHandler.decodeLoop_next (items : List (Except String Order))
    (acc orders : Slice Order) (h : mapHandler.decodeLoop items acc = .next orders) :
    ∃ os : List Order, items = os.map Except.ok ∧ orders = acc.appendAll os := by
  induction items generalizing acc with
  | nil =>
    refine ⟨[], rfl, ?_⟩
    simpa [mapHandler.decodeLoop, Slice.appendAll] using h.symm
  | cons item rest ih =>
    cases item with
    | error e => simp [mapHandler.decodeLoop] at h
    | ok order =>
      obtain ⟨os, hitems, horders⟩ := ih (acc.append order) (by simpa [mapHandler.decodeLoop] using h)
      exact ⟨order :: os, by simp [hitems], by simpa [Slice.appendAll] using horders⟩

/-- A geocoding loop that runs to its end got a location for every order and
appended each in turn. -/
theorem mapHandler.geocodeLoop_next (env : Env) (orders : List Order)
    (acc locations : Slice Location)
    (h : mapHandler.geocodeLoop env orders acc = .next locations) :
    ∃ ls : List Location,
      ls.map GoResult.ok = orders.map (fun o => geocodeAddress env o.Address) ∧
      locations = acc.appendAll ls := by
  induction orders generalizing acc with
  | nil =>
    refine ⟨[], rfl, ?_⟩
    simpa [mapHandler.geocodeLoop, Slice.appendAll] using h.symm
  | cons order rest ih =>
    simp only [mapHandler.geocodeLoop] at h
    cases hg : geocodeAddress env order.Address with
    | err e => simp [hg] at h
    | panic msg => simp [hg] at h
    | ok location =>
      simp only [hg] at h
      obtain ⟨ls, hls, hlocs⟩ := ih (acc.append location) h
      exact ⟨location :: ls, by simp [hls, hg], by simpa [Slice.appendAll] using hlocs⟩

/-- What `listAll` returned when it did not give up. -/
theorem mapHandler.listAll_next (env : Env) (orders : Slice Order)
    (h : mapHandler.listAll env = .next orders) :
    ∃ (cursor : Cursor) (os : List Order), env.find = .ok cursor ∧
      cursor.items = os.map Except.ok ∧ cursor.err = none ∧
      orders = Slice.nil.appendAll os := by
  unfold mapHandler.listAll at h
  cases hf : env.find with
  | error e => simp [hf] at h
  | ok cursor =>
    simp only [hf] at h
    cases hd : mapHandler.decodeLoop cursor.items .nil with
    | halt p t => simp [hd] at h
    | next os0 =>
      simp only [hd] at h
      cases he : cursor.err with
      | some e => simp [he] at h
      | none =>
        simp only [he, Stage.next.injEq] at h
        obtain ⟨os, hitems, hos⟩ := mapHandler.decodeLoop_next _ _ _ hd
        exact ⟨cursor, os, rfl, hitems, he, by rw [← h, hos]⟩

/-- What the section before rendering built when it did not give up. -/
theorem mapHandler.collect_next (env : Env) (data : PageData)
    (h : mapHandler.collect env = .next data) :
    ∃ (cursor : Cursor) (os : List Order) (ls : List Location),
      env.find = .ok cursor ∧ cursor.items = os.map Except.ok ∧ cursor.err = none ∧
      ls.map GoResult.ok = os.map (fun o => geocodeAddress env o.Address) ∧
      data = { Orders := Slice.nil.appendAll os, Locations := Slice.nil.appendAll ls } := by
  unfold mapHandler.collect at h
  cases hl : mapHandler.listAll env with
  | halt p t => simp [hl] at h
  | next orders =>
    simp only [hl] at h
    cases hg : mapHandler.geocodeLoop env orders.toList .nil with
    | halt p t => simp [hg] at h
    | next locations =>
      simp only [hg, Stage.next.injEq] at h
      obtain ⟨cursor, os, hfind, hitems, herr, horders⟩ := mapHandler.listAll_next env orders hl
      obtain ⟨ls, hls, hlocs⟩ := mapHandler.geocodeLoop_next env _ _ _ hg
      refine ⟨cursor, os, ls, hfind, hitems, herr, ?_, ?_⟩
      · rw [hls, horders, Slice.toList_nil_appendAll]
      · rw [← h, horders, hlocs]

/-- The data built before rendering is paired by position and in store order. -/
theorem mapHandler.collect_paired (env : Env) (data : PageData)
    (h : mapHandler.collect env = .next data) :
    PairedByPosition env data ∧ InStoreOrder env data := by
  obtain ⟨cursor, os, ls, hfind, hitems, _, hls, rfl⟩ := mapHandler.collect_next env data h
  refine ⟨⟨?_, ?_⟩, cursor, hfind, ?_⟩
  · have := congrArg List.length hls
    simpa [Slice.len, Slice.toList_nil_appendAll] using this
  · intro i order hi
    simp only [Slice.toList_nil_appendAll] at hi ⊢
    have h1 : (ls.map GoResult.ok)[i]? = some (geocodeAddress env order.Address) := by
      rw [hls, List.getElem?_map, hi]; rfl
    rw [List.getElem?_map] at h1
    cases hl : ls[i]? with
    | none => simp [hl] at h1
    | some location =>
      refine ⟨location, rfl, ?_⟩
      simp only [hl, Option.map_some', Option.some.injEq] at h1
      exact h1.symm
  · simpa [Slice.toList_nil_appendAll] using hitems

/-- C4: whenever `mapHandler` or `ordersAPIHandler` gets as far as rendering
or serialising, the data it hands over has as many locations as orders, the
location at each index is the result of geocoding the address of the order at
that index, and the orders are the documents of the cursor in cursor order. -/
theorem listing_paired_by_position (env : Env) (data : PageData)
    (h : mapHandler.collect env = .next data ∨ ordersAPIHandler.collect env = .next data) :
    PairedByPosition env data ∧ InStoreOrder env data ∧
      mapHandler env = mapHandler.render env data ∧
      ordersAPIHandler env = ordersAPIHandler.serialize data := by
  have hm : mapHandler.collect env = .next data := by
    rcases h with h | h
    · exact h
    · rw [← collect_agree]; exact h
  have ha : ordersAPIHandler.collect env = .next data := by rw [collect_agree]; exact hm
  obtain ⟨hp, hs⟩ := mapHandler.collect_paired env data hm
  refine ⟨hp, hs, ?_, ?_⟩
  · simp only [mapHandler, hm]
  · simp only [ordersAPIHandler, ha]

/-- Witness for C4: a store with two orders for `Paris`. -/
theorem listing_paired_by_position_witness :
    PairedByPosition (sampleEnv (findOf [orderParis, orderParis2]))
        ⟨.mk [orderParis, orderParis2], .mk [locParis, locParis]⟩ ∧
      InStoreOrder (sampleEnv (findOf [orderParis, orderParis2]))
        ⟨.mk [orderParis, orderParis2], .mk [locParis, locParis]⟩ ∧
      mapHandler (sampleEnv (findOf [orderParis, orderParis2]))
        = mapHandler.render (sampleEnv (findOf [orderParis, orderParis2]))
            ⟨.mk [orderParis, orderParis2], .mk [locParis, locParis]⟩ ∧
      ordersAPIHandler (sampleEnv (findOf [orderParis, orderParis2]))
        = ordersAPIHandler.serialize ⟨.mk [orderParis, orderParis2], .mk [locParis, locParis]⟩ :=
  listing_paired_by_position (sampleEnv (findOf [orderParis, orderParis2]))
    ⟨.mk [orderParis, orderParis2], .mk [locParis, locParis]⟩ (Or.inl rfl)

/-- The sections of `ordersAPIHandler` and `mapHandler` that precede the
final step are the same function of the environment (same data, or the same
stopping point with the same calls on the response), and each handler is that
section followed by its own final step: rendering the template or writing the
JSON encoding. -/
theorem handlers_share_pipeline (env : Env) :
    ordersAPIHandler.collect env = mapHandler.collect env ∧
    mapHandler env =
      (match ordersAPIHandler.collect env with
        | .halt _ t => t
        | .next data => mapHandler.render env data) ∧
    ordersAPIHandler env =
      (match mapHandler.collect env with
        | .halt _ t => t
        | .next data => ordersAPIHandler.serialize data) := by
  refine ⟨collect_agree env, ?_, ?_⟩
  · rw [collect_agree]; rfl
  · rw [← collect_agree]; rfl

/-- A cursor loop that stops early has made one `http.Error` call with status 500. -/
theorem mapHandler.decodeLoop_halt (items : List (Except String Order)) (acc : Slice Order)
    (p : FailPoint) (t : Trace) (h : mapHandler.decodeLoop items acc = .halt p t) :
    ∃ e, t = [.httpError e 500] := by
  induction items generalizing acc with
  | nil => simp [mapHandler.decodeLoop] at h
  | cons item rest ih =>
    cases item with
    | error e =>
      simp only [mapHandler.decodeLoop, Stage.halt.injEq] at h
      exact ⟨e, h.2.symm⟩
    | ok order => exact ih (acc.append order) (by simpa [mapHandler.decodeLoop] using h)

/-- A geocoding loop that stops early has made one `http.Error` call with
status 500, or has panicked. -/
theorem mapHandler.geocodeLoop_halt (env : Env) (orders : List Order) (acc : Slice Location)
    (p : FailPoint) (t : Trace) (h : mapHandler.geocodeLoop env orders acc = .halt p t) :
    (∃ e, t = [.httpError e 500]) ∨ (∃ msg, t = [.crash msg]) := by
  induction orders generalizing acc with
  | nil => simp [mapHandler.geocodeLoop] at h
  | cons order rest ih =>
    simp only [mapHandler.geocodeLoop] at h
    cases hg : geocodeAddress env order.Address with
    | ok location =>
      simp only [hg] at h
      exact ih _ h
    | err e =>
      simp only [hg, Stage.halt.injEq] at h
      exact Or.inl ⟨e, h.2.symm⟩
    | panic msg =>
      simp only [hg, Stage.halt.injEq] at h
      exact Or.inr ⟨msg, h.2.symm⟩

/-- When the section before rendering stops, in either handler, the response
is a single `http.Error` call with status 500, or the handler has panicked
inside `geocodeAddress`. -/
theorem collect_halt (env : Env) (p : FailPoint) (t : Trace)
    (h : mapHandler.collect env = .halt p t) :
    ordersAPIHandler.collect env = .halt p t ∧
      ((∃ e, t = [.httpError e 500]) ∨ (∃ msg, t = [.crash msg])) := by
  refine ⟨by rw [collect_agree]; exact h, ?_⟩
  unfold mapHandler.collect at h
  cases hl : mapHandler.listAll env with
  | halt q u =>
    simp only [hl, Stage.halt.injEq] at h
    obtain ⟨-, rfl⟩ := h
    left
    unfold mapHandler.listAll at hl
    cases hf : env.find with
    | error e =>
      simp only [hf, Stage.halt.injEq] at hl
      exact ⟨e, hl.2.symm⟩
    | ok cursor =>
      simp only [hf] at hl
      cases hd : mapHandler.decodeLoop cursor.items .nil with
      | halt q2 u2 =>
        simp only [hd, Stage.halt.injEq] at hl
        obtain ⟨-, rfl⟩ := hl
        exact mapHandler.decodeLoop_halt _ _ _ _ hd
      | next os =>
        simp only [hd] at hl
        cases he : cursor.err with
        | none => simp [he] at hl
        | some e =>
          simp only [he, Stage.halt.injEq] at hl
          exact ⟨e, hl.2.symm⟩
  | next orders =>
    simp only [hl] at h
    cases hg : mapHandler.geocodeLoop env orders.toList .nil with
    | next ls => simp [hg] at h
    | halt q u =>
      simp only [hg, Stage.halt.injEq] at h
      obtain ⟨-, rfl⟩ := h
      exact mapHandler.geocodeLoop_halt env _ _ _ _ hg

/-- Every document decodes: the cursor loop appends them all. -/
theorem mapHandler.decodeLoop_all_ok (os : List Order) (acc : Slice Order) :
    mapHandler.decodeLoop (os.map Except.ok) acc = .next (acc.appendAll os) := by
  induction os generalizing acc with
  | nil => rfl
  | cons o os ih => simpa [mapHandler.decodeLoop, Slice.appendAll] using ih _

/-- Length after one `append`. -/
theorem Slice.len_append {α : Type} (s : Slice α) (x : α) : (s.append x).len = s.len + 1 := by
  simp [Slice.len, Slice.append, Slice.toList]

/-- When the orders before `order` all geocode and `order` gets an error, the
geocoding loop stops there with a 500 carrying that error. -/
theorem mapHandler.geocodeLoop_first_error (env : Env) (before : List (Order × Location))
    (order : Order) (later : List Order) (acc : Slice Location) (e : String)
    (hbefore : ∀ p ∈ before, geocodeAddress env p.1.Address = .ok p.2)
    (hfail : geocodeAddress env order.Address = .err e) :
    mapHandler.geocodeLoop env (before.map Prod.fst ++ order :: later) acc
      = .halt (.geocode (acc.len + before.length))
          [.httpError e StatusInternalServerError] := by
  induction before generalizing acc with
  | nil => simp [mapHandler.geocodeLoop, hfail]
  | cons p ps ih =>
    have hp := hbefore p (List.mem_cons_self _ _)
    have hps : ∀ q ∈ ps, geocodeAddress env q.1.Address = .ok q.2 :=
      fun q hq => hbefore q (List.mem_cons_of_mem _ hq)
    have hstep : mapHandler.geocodeLoop env ((p :: ps).map Prod.fst ++ order :: later) acc
        = mapHandler.geocodeLoop env (ps.map Prod.fst ++ order :: later) (acc.append p.2) := by
      simp only [List.map_cons, List.cons_append, mapHandler.geocodeLoop, hp]
      rfl
    rw [hstep, ih _ hps, Slice.len_append]
    simp only [List.length_cons]
    congr 2
    omega

/-- When every geocode call made before the first one that returns an error
succeeds, both listing handlers answer with exactly one `http.Error` call of
status 500 carrying that error text, and write nothing else. -/
theorem handlers_abort_on_first_geocode_error (env : Env) (cursor : Cursor)
    (before : List (Order × Location)) (order : Order) (later : List Order) (e : String)
    (hfind : env.find = .ok cursor)
    (hitems : cursor.items = (before.map Prod.fst ++ order :: later).map Except.ok)
    (herr : cursor.err = none)
    (hbefore : ∀ p ∈ before, geocodeAddress env p.1.Address = .ok p.2)
    (hfail : geocodeAddress env order.Address = .err e) :
    mapHandler env = [.httpError e StatusInternalServerError] ∧
    ordersAPIHandler env = [.httpError e StatusInternalServerError] := by
  have hl : mapHandler.listAll env
      = .next (Slice.nil.appendAll (before.map Prod.fst ++ order :: later)) := by
    simp only [mapHandler.listAll, hfind, hitems, mapHandler.decodeLoop_all_ok, herr]
  have hc : mapHandler.collect env
      = .halt (.geocode ((Slice.nil : Slice Location).len + before.length))
          [.httpError e StatusInternalServerError] := by
    simp only [mapHandler.collect, hl, Slice.toList_nil_appendAll,
      mapHandler.geocodeLoop_first_error env before order later .nil e hbefore hfail]
  constructor
  · simp only [mapHandler, hc]
  · simp only [ordersAPIHandler, collect_agree, hc]

/-- C5 (evaluation at the failing input): the store holds an order for
`Atlantis` (provider status OK, no result) followed by one for `Nowhere`
(provider status ZERO_RESULTS). Geocoding `Nowhere` returns an error, yet both
handlers end in a panic and never call `http.Error`. -/
theorem listing_crashes_before_geocode_error :
    geocodeAddress (sampleEnv (findOf [orderAtlantis, orderNowhere])) "Nowhere"
      = .err "Geocode request failed with status: ZERO_RESULTS" ∧
    mapHandler (sampleEnv (findOf [orderAtlantis, orderNowhere]))
      = [.crash "runtime error: index out of range [0] with length 0"] ∧
    ordersAPIHandler (sampleEnv (findOf [orderAtlantis, orderNowhere]))
      = [.crash "runtime error: index out of range [0] with length 0"] :=
  ⟨rfl, rfl, rfl⟩

/-- C9 (evaluation at the failing input): the store holds one order for
`Atlantis` (provider status OK, no result). Both handlers stop at the first
geocode call with the same panic, so they neither compute the same pair of
orders and locations nor fail with the same 500 status and error text: no
`http.Error` call is made by either. -/
theorem listing_pipelines_crash_alike :
    mapHandler.collect (sampleEnv (findOf [orderAtlantis]))
      = .halt (.geocode 0) [.crash "runtime error: index out of range [0] with length 0"] ∧
    ordersAPIHandler.collect (sampleEnv (findOf [orderAtlantis]))
      = .halt (.geocode 0) [.crash "runtime error: index out of range [0] with length 0"] ∧
    mapHandler (sampleEnv (findOf [orderAtlantis]))
      = [.crash "runtime error: index out of range [0] with length 0"] ∧
    ordersAPIHandler (sampleEnv (findOf [orderAtlantis]))
      = [.crash "runtime error: index out of range [0] with length 0"] ∧
    ¬ ((∃ data, mapHandler.collect (sampleEnv (findOf [orderAtlantis])) = .next data ∧
          ordersAPIHandler.collect (sampleEnv (findOf [orderAtlantis])) = .next data) ∨
       (∃ p e, mapHandler.collect (sampleEnv (findOf [orderAtlantis]))
            = .halt p [.httpError e 500] ∧
          ordersAPIHandler.collect (sampleEnv (findOf [orderAtlantis]))
            = .halt p [.httpError e 500])) := by
  have hm : mapHandler.collect (sampleEnv (findOf [orderAtlantis]))
      = .halt (.geocode 0) [.crash "runtime error: index out of range [0] with length 0"] :=
    rfl
  have ha : ordersAPIHandler.collect (sampleEnv (findOf [orderAtlantis]))
      = .halt (.geocode 0) [.crash "runtime error: index out of range [0] with length 0"] :=
    rfl
  refine ⟨hm, ha, rfl, rfl, ?_⟩
  rintro (⟨data, h, -⟩ | ⟨p, e, h, -⟩)
  · rw [hm] at h
    cases h
  · rw [hm] at h
    simp at h

/-! ## submitHandler -/

/-- `listAll` on a healthy collection returns its documents. -/
theorem mapHandler.listAll_of_collection (env : Env) (c : Collection)
    (hfind : env.find = c.find) :
    mapHandler.listAll env = .next (Slice.nil.appendAll c.docs) := by
  simp only [mapHandler.listAll, hfind, Collection.find, mapHandler.decodeLoop_all_ok]

/-- One successful submission appends the order built from the form. -/
theorem submitHandler_docs (r : Request) (fault : Option String) (c : Collection)
    (form : Values) (hpost : r.Method = MethodPost) (hparse : r.parseForm = .ok form)
    (hfault : fault = none) :
    (submitHandler r fault c).2.docs = c.docs ++ [orderOfForm form] := by
  simp [submitHandler, hpost, hparse, hfault, InsertOne, orderOfForm]

/-- After a run of successful submissions the collection has grown by one
document per submission. -/
theorem submitAll_length (reqs : List (Request × Option String)) (c : Collection)
    (hok : ∀ q ∈ reqs, q.1.Method = MethodPost ∧ (∃ form, q.1.parseForm = .ok form) ∧
      q.2 = none) :
    (submitAll reqs c).docs.length = c.docs.length + reqs.length := by
  induction reqs generalizing c with
  | nil => simp [submitAll]
  | cons q rest ih =>
    obtain ⟨r, fault⟩ := q
    obtain ⟨hpost, ⟨form, hparse⟩, hfault⟩ := hok (r, fault) (List.mem_cons_self _ _)
    have hrest := ih (submitHandler r fault c).2
      (fun q hq => hok q (List.mem_cons_of_mem _ hq))
    simp only [submitAll, hrest, submitHandler_docs r fault c form hpost hparse hfault,
      List.length_append, List.length_cons, List.length_nil]
    omega

/-- C6: a POST whose form parses and whose insert succeeds adds exactly one
document, placed after the unchanged earlier ones, whose four fields are the
form values of `name`, `phone`, `address` and `preferable_delivery_time`
(the first value of the field, the empty string for a field that is absent);
and after N such submissions to an empty collection the listAll section of
either listing handler returns N orders. -/
theorem submit_stores_one_order :
    (∀ (r : Request) (fault : Option String) (c : Collection) (form : Values),
      r.Method = MethodPost → r.parseForm = .ok form → fault = none →
      (submitHandler r fault c).2.docs = c.docs ++
        [{ Name := FormValue form "name"
           Phone := FormValue form "phone"
           Address := FormValue form "address"
           PreferableDeliveryTime := FormValue form "preferable_delivery_time" }]) ∧
    (∀ (form : Values) (key : String), form.lookup key = none → FormValue form key = "") ∧
    (∀ (form : Values) (key v : String) (vs : List String),
      form.lookup key = some (v :: vs) → FormValue form key = v) ∧
    (∀ (reqs : List (Request × Option String)),
      (∀ q ∈ reqs, q.1.Method = MethodPost ∧ (∃ form, q.1.parseForm = .ok form) ∧
        q.2 = none) →
      ∀ env : Env, env.find = (submitAll reqs ⟨[]⟩).find →
        ∃ orders, mapHandler.listAll env = .next orders ∧
          ordersAPIHandler.listAll env = .next orders ∧ orders.len = reqs.length) := by
  refine ⟨?_, ?_, ?_, ?_⟩
  · intro r fault c form hpost hparse hfault
    exact submitHandler_docs r fault c form hpost hparse hfault
  · intro form key h
    simp [FormValue, h]
  · intro form key v vs h
    simp [FormValue, h]
  · intro reqs hok env hfind
    refine ⟨Slice.nil.appendAll (submitAll reqs ⟨[]⟩).docs, ?_, ?_, ?_⟩
    · exact mapHandler.listAll_of_collection env _ hfind
    · rw [listAll_agree]; exact mapHandler.listAll_of_collection env _ hfind
    · have := submitAll_length reqs ⟨[]⟩ hok
      simpa [Slice.len, Slice.toList_nil_appendAll] using this

/-- Witness for C6: the form of the specification example (without a phone
field) is stored as one order, and after two submissions `listAll` returns two. -/
theorem submit_stores_one_order_witness :
    (submitHandler ⟨"POST", .ok formAlice⟩ none ⟨[orderNowhere]⟩).2.docs
      = [orderNowhere, ⟨"Alice", "", "Paris", "morning"⟩] ∧
    ∃ orders,
      mapHandler.listAll (sampleEnv (submitAll
        [(⟨"POST", .ok formAlice⟩, none), (⟨"POST", .ok formDave⟩, none)] ⟨[]⟩).find)
        = .next orders ∧
      ordersAPIHandler.listAll (sampleEnv (submitAll
        [(⟨"POST", .ok formAlice⟩, none), (⟨"POST", .ok formDave⟩, none)] ⟨[]⟩).find)
        = .next orders ∧
      orders.len = 2 :=
  ⟨submit_stores_one_order.1 ⟨"POST", .ok formAlice⟩ none ⟨[orderNowhere]⟩ formAlice rfl rfl rfl,
   submit_stores_one_order.2.2.2
    [(⟨"POST", .ok formAlice⟩, none), (⟨"POST", .ok formDave⟩, none)]
    (by
      intro q hq
      simp only [List.mem_cons, List.mem_singleton, List.not_mem_nil, or_false] at hq
      rcases hq with rfl | rfl
      · exact ⟨rfl, ⟨formAlice, rfl⟩, rfl⟩
      · exact ⟨rfl, ⟨formDave, rfl⟩, rfl⟩)
    _ rfl⟩

/-- C7: for a POST, the response is the 303 redirect to `/map` exactly when
the form parses and the insert succeeds; when parsing fails, or parsing
succeeds and the insert fails, the response is a single `http.Error` of status
500 with the text of that error; a form without any field still redirects. -/
theorem submit_response (r : Request) (fault : Option String) (c : Collection)
    (hpost : r.Method = MethodPost) :
    ((submitHandler r fault c).1 = [.httpRedirect "/map" 303] ↔
      (∃ form, r.parseForm = .ok form) ∧ fault = none) ∧
    (∀ e, r.parseForm = .error e → (submitHandler r fault c).1 = [.httpError e 500]) ∧
    (∀ form e, r.parseForm = .ok form → fault = some e →
      (submitHandler r fault c).1 = [.httpError e 500]) ∧
    (r.parseForm = .ok [] → fault = none →
      (submitHandler r fault c).1 = [.httpRedirect "/map" 303]) := by
  cases hparse : r.parseForm with
  | error e =>
    simp [submitHandler, hpost, hparse, StatusInternalServerError]
  | ok form =>
    cases fault with
    | none =>
      simp [submitHandler, hpost, hparse, InsertOne, StatusSeeOther]
    | some e =>
      simp [submitHandler, hpost, hparse, InsertOne, StatusInternalServerError]

/-- Witness for C7: a POST with an empty form and a working store is redirected. -/
theorem submit_response_witness :
    (submitHandler ⟨"POST", .ok []⟩ none ⟨[]⟩).1 = [.httpRedirect "/map" 303] :=
  (submit_response ⟨"POST", .ok []⟩ none ⟨[]⟩ rfl).2.2.2 rfl rfl

/-- C8: a request to `/submit` whose method is not `POST` gets the single call
`http.Error(w, "Method not allowed", 405)` and leaves the collection as it was. -/
theorem submit_rejects_other_methods (r : Request) (fault : Option String)
    (c : Collection) (hmethod : r.Method ≠ "POST") :
    submitHandler r fault c = ([.httpError "Method not allowed" 405], c) := by
  simp [submitHandler, MethodPost, hmethod, StatusMethodNotAllowed]

/-- Witness for C8: a GET request. -/
theorem submit_rejects_other_methods_witness :
    submitHandler ⟨"GET", .ok formAlice⟩ none ⟨[orderParis]⟩
      = ([.httpError "Method not allowed" 405], ⟨[orderParis]⟩) :=
  submit_rejects_other_methods ⟨"GET", .ok formAlice⟩ none ⟨[orderParis]⟩ (by decide)

/-! ## The JSON body of ordersAPIHandler -/

/-- Appending to a non-nil slice. -/
theorem Slice.mk_appendAll {α : Type} (xs ys : List α) :
    (Slice.mk xs).appendAll ys = .mk (xs ++ ys) := by
  induction ys generalizing xs with
  | nil => simp [Slice.appendAll]
  | cons y ys ih =>
    simp only [Slice.appendAll, Slice.append, Slice.toList]
    rw [ih]
    simp

/-- Appending at least one element to the nil slice gives a non-nil slice. -/
theorem Slice.nil_appendAll_cons {α : Type} (x : α) (xs : List α) :
    (Slice.nil : Slice α).appendAll (x :: xs) = .mk (x :: xs) := by
  simp only [Slice.appendAll, Slice.append, Slice.toList, List.nil_append]
  rw [Slice.mk_appendAll]
  rfl

/-- A location returned by `geocodeAddress` has the two entries `lat` and
`lng`, in this order, and both values are finite. -/
theorem geocodeAddress_ok_shape (env : Env) (address : String) (location : Location)
    (h : geocodeAddress env address = .ok location) :
    ∃ lat lng, location = [("lat", lat), ("lng", lng)] ∧
      lat.isFinite = true ∧ lng.isFinite = true := by
  unfold geocodeAddress at h
  cases hget : env.httpGet (geocodeURL env address) with
  | error e => simp [hget] at h
  | ok body =>
    simp only [hget] at h
    cases hdec : env.jsonDecode body with
    | error e => simp [hdec] at h
    | ok result =>
      simp only [hdec] at h
      by_cases hstatus : result.Status = "OK"
      · cases hres : result.Results with
        | nil => simp [hstatus, hres] at h
        | cons first rest =>
          simp only [hstatus, hres, ne_eq, not_true_eq_false, if_false,
            GoResult.ok.injEq] at h
          have hfin := env.jsonDecode_finite body result hdec first (by simp [hres])
          exact ⟨_, _, h.symm, hfin.1, hfin.2⟩
      · simp [hstatus] at h

/-- A finite number is encoded as itself. -/
theorem marshalFloat_finite (f : Float64) (h : f.isFinite = true) :
    marshalFloat f = .ok (.num f) := by
  unfold Float64.isFinite at h
  have hn : f.isNaN = false := by
    cases hx : f.isNaN <;> simp [hx] at h ⊢
  have hi : f.isInf = false := by
    cases hx : f.isInf <;> simp [hx] at h ⊢
  simp [marshalFloat, hn, hi]

/-- A `lat`/`lng` map with finite values is encoded as the object with these
two keys. -/
theorem marshalLocation_latlng (lat lng : Float64) (hlat : lat.isFinite = true)
    (hlng : lng.isFinite = true) :
    marshalLocation [("lat", lat), ("lng", lng)]
      = .ok (.obj [("lat", .num lat), ("lng", .num lng)]) := by
  have hlt : "lat" < "lng" := String.lt_iff_toList_lt.mpr (by decide)
  simp [marshalLocation, sortByKey, insertByKey, hlt, marshalEntries,
    marshalFloat_finite, hlat, hlng]

/-- A list of such maps is encoded element by element. -/
theorem marshalLocationList_latlng (ls : List Location)
    (h : ∀ l ∈ ls, ∃ lat lng, l = [("lat", lat), ("lng", lng)] ∧
      lat.isFinite = true ∧ lng.isFinite = true) :
    ∃ js, marshalLocationList ls = .ok js ∧ List.Forall₂ LatLngObject ls js := by
  induction ls with
  | nil => exact ⟨[], rfl, List.Forall₂.nil⟩
  | cons l rest ih =>
    obtain ⟨lat, lng, rfl, hlat, hlng⟩ := h l (List.mem_cons_self _ _)
    obtain ⟨js, hjs, hall⟩ := ih (fun m hm => h m (List.mem_cons_of_mem _ hm))
    refine ⟨.obj [("lat", .num lat), ("lng", .num lng)] :: js, ?_, ?_⟩
    · simp only [marshalLocationList, marshalLocation_latlng lat lng hlat hlng, hjs]
    · exact List.Forall₂.cons ⟨lat, lng, rfl, rfl⟩ hall

/-- C10 (counterexample): with an empty store the listing succeeds with nil
slices and the body written is the object whose `Orders` and `Locations` are
both `null`, which is not an array. -/
theorem ordersAPI_empty_store_writes_null :
    ordersAPIHandler.collect (sampleEnv (findOf [])) = .next ⟨.nil, .nil⟩ ∧
    ordersAPIHandler (sampleEnv (findOf []))
      = [.setHeader "Content-Type" "application/json",
          .writeJSON (.obj [("Orders", .null), ("Locations", .null)])] ∧
    JSON.null.isArray = false :=
  ⟨rfl, rfl, rfl⟩

/-- C10 (amended): whenever the listing section of `ordersAPIHandler`
succeeds, the response is the JSON content type followed by one object with
exactly the keys `Orders` and `Locations`; for a non-empty listing both are
arrays with one element per order, each location being an object with exactly
the keys `lat` and `lng`, and for an empty listing both are `null`. -/
theorem ordersAPI_body (env : Env) (data : PageData)
    (h : ordersAPIHandler.collect env = .next data) :
    OrdersBody data (ordersAPIHandler env) ∧ InStoreOrder env data := by
  have hm : mapHandler.collect env = .next data := by rw [← collect_agree]; exact h
  refine ⟨?_, (mapHandler.collect_paired env data hm).2⟩
  obtain ⟨cursor, os, ls, _, _, _, hls, rfl⟩ := mapHandler.collect_next env data hm
  have hshape : ∀ l ∈ ls, ∃ lat lng, l = [("lat", lat), ("lng", lng)] ∧
      lat.isFinite = true ∧ lng.isFinite = true := by
    intro l hl
    have hmem : GoResult.ok l ∈ os.map (fun o => geocodeAddress env o.Address) := by
      rw [← hls]; exact List.mem_map_of_mem _ hl
    obtain ⟨o, _, ho⟩ := List.mem_map.mp hmem
    exact geocodeAddress_ok_shape env o.Address l ho
  have hlen : ls.length = os.length := by simpa using congrArg List.length hls
  simp only [ordersAPIHandler, h]
  cases os with
  | nil =>
    have hnil : ls = [] := List.length_eq_zero.mp (by simpa using hlen)
    subst hnil
    refine ⟨.null, .null, rfl, fun _ => ⟨rfl, rfl⟩, ?_⟩
    intro hpos
    simp [Slice.appendAll, Slice.len, Slice.toList] at hpos
  | cons o os =>
    cases ls with
    | nil => simp at hlen
    | cons l ls =>
      obtain ⟨js, hjs, hall⟩ := marshalLocationList_latlng (l :: ls) hshape
      refine ⟨.arr ((o :: os).map marshalOrder), .arr js, ?_, ?_, ?_⟩
      · simp only [ordersAPIHandler.serialize, marshalData, Slice.nil_appendAll_cons,
          marshalLocations, hjs, marshalOrders]
      · intro hzero
        simp [Slice.nil_appendAll_cons, Slice.len, Slice.toList] at hzero
      · intro _
        refine ⟨(o :: os).map marshalOrder, js, rfl, rfl, ?_, ?_, ?_, ?_⟩
        · simp [Slice.nil_appendAll_cons, Slice.toList]
        · simp [Slice.nil_appendAll_cons, Slice.len, Slice.toList]
        · rw [← hall.length_eq, hlen]; simp
        · simpa [Slice.nil_appendAll_cons, Slice.toList] using hall

/-- Witness for C10 (amended): one stored order for `Paris`. -/
theorem ordersAPI_body_witness :
    OrdersBody ⟨.mk [orderParis], .mk [locParis]⟩
        (ordersAPIHandler (sampleEnv (findOf [orderParis]))) ∧
      InStoreOrder (sampleEnv (findOf [orderParis])) ⟨.mk [orderParis], .mk [locParis]⟩ :=
  ordersAPI_body (sampleEnv (findOf [orderParis])) ⟨.mk [orderParis], .mk [locParis]⟩ rfl

end OrderLocator
